import Mathlib

/-!
# Verification of the meeting-activity detection engine

Shallow embedding of the two monitor scripts of the `transcriber` repository
(`scripts/app-monitor.py` and `scripts/audio-monitor.py`) together with the
marker-file signal publisher and the startup configuration loading, and proofs
of the specification claims about them.

Modelling conventions:
* Python floats (timestamps, dB levels, thresholds) are embedded as exact
  rationals `ℚ`.
* Python strings are embedded as `List Char`; `s.lower()` is `List.map
  Char.toLower` and `a in b` (substring test) is decidable `List.IsInfix`.
* Python truthiness of an optional float (`if x:` where `x` is `None` or a
  float) is `pyTruthy`: `None` and `0.0` are falsy.
* Each loop iteration reads the clock several times (`time.time()` at the
  start-transition, at the stop check and at the stop write); these reads are
  microseconds apart and are modelled as a single per-iteration instant `now`.
* A marker write (`open(path, "w")` + `write`) is modelled as an update of a
  path-indexed store; the variant with injected write failures models the
  `OSError` a failed `open`/`write` raises.
-/

namespace Transcriber

/-- Python truthiness of an optional float: `None` and `0.0` are falsy. -/
def pyTruthy (o : Option ℚ) : Bool :=
  match o with
  | none => false
  | some x => decide (x ≠ 0)

/-- Python `s.lower()` on a string embedded as a character list. -/
def lowerStr (s : List Char) : List Char := s.map Char.toLower

/-- Python `a in b` for strings: `a` occurs in `b` as a contiguous substring. -/
def pyIn (a b : List Char) : Bool := decide (List.IsInfix a b)

/-! ## `scripts/app-monitor.py` -/

/-- The browser list hard-coded in `check_meeting_activity`
(`['Google Chrome', 'Safari', 'Microsoft Edge', 'Firefox']`). -/
def browser_list : List (List Char) :=
  ["Google Chrome".data, "Safari".data, "Microsoft Edge".data, "Firefox".data]

/-- `check_meeting_activity(app_name, window_title, monitored_apps,
meeting_keywords)`: returns `False` for a falsy `app_name` (absent or empty);
for a monitored browser it scans `meeting_keywords` for a case-insensitive
substring of a truthy `window_title`; for any other monitored app it returns
`True`; otherwise `False`. -/
def check_meeting_activity (app_name window_title : Option (List Char))
    (monitored_apps meeting_keywords : List (List Char)) : Bool :=
  match app_name with
  | none => false
  | some app =>
    if app = [] then false
    else if app ∈ monitored_apps then
      if app ∈ browser_list then
        match window_title with
        | none => false
        | some title =>
          if title = [] then false
          else meeting_keywords.any (fun kw => pyIn (lowerStr kw) (lowerStr title))
      else true
    else false

/-- The mutable loop state of `app-monitor.py`'s `main`:
`current_app`, `meeting_active`, `meeting_start_time`. -/
structure AppState where
  current_app : Option (List Char)
  meeting_active : Bool
  meeting_start_time : Option ℚ
deriving DecidableEq

/-- Initial state of the app-monitor loop
(`current_app = None`, `meeting_active = False`, `meeting_start_time = None`). -/
def initApp : AppState := ⟨none, false, none⟩

/-- A marker write performed by `app-monitor.py`: the `/tmp/meeting_trigger`
write carries `f"{meeting_start_time}:{app_name}"` (time and app name), the
`/tmp/meeting_stop` write carries `str(time.time())`. -/
inductive AppEvent where
  | start (time : ℚ) (app : List Char)
  | stop (time : ℚ)
deriving DecidableEq

/-- One iteration of the `while True` loop of `app-monitor.py`'s `main`,
on a poll `(now, app_name, window_title)`: update `current_app`, classify via
`check_meeting_activity`, then either take the start transition, or take the
stop transition guarded by `meeting_start_time and now - meeting_start_time
> 30`, or do nothing. Returns the new state plus the marker writes made. -/
def appStep (monitored_apps meeting_keywords : List (List Char)) (st : AppState)
    (now : ℚ) (app_name window_title : Option (List Char)) :
    AppState × List AppEvent :=
  let st1 : AppState := { st with current_app := app_name }
  let is_meeting_app := check_meeting_activity app_name window_title
      monitored_apps meeting_keywords
  if is_meeting_app && !st1.meeting_active then
    ({ st1 with meeting_active := true, meeting_start_time := some now },
      [AppEvent.start now (app_name.getD [])])
  else if !is_meeting_app && st1.meeting_active then
    if pyTruthy st1.meeting_start_time
        && decide (now - (st1.meeting_start_time.getD 0) > 30) then
      ({ st1 with meeting_active := false, meeting_start_time := none },
        [AppEvent.stop now])
    else (st1, [])
  else (st1, [])

/-- The app-monitor loop run over a finite list of polls
`(now, app_name, window_title)`, collecting the marker writes in order. -/
def runApp (monitored_apps meeting_keywords : List (List Char)) :
    AppState → List (ℚ × Option (List Char) × Option (List Char)) →
    AppState × List AppEvent
  | st, [] => (st, [])
  | st, (now, app_name, window_title) :: rest =>
    let p := appStep monitored_apps meeting_keywords st now app_name window_title
    let q := runApp monitored_apps meeting_keywords p.1 rest
    (q.1, p.2 ++ q.2)

/-! ## `scripts/audio-monitor.py` -/

/-- The mutable loop state of `audio-monitor.py`'s `main`:
`is_recording`, `audio_start_time`, `last_audio_time`. -/
structure AudioState where
  is_recording : Bool
  audio_start_time : Option ℚ
  last_audio_time : Option ℚ
deriving DecidableEq

/-- Initial state of the audio-monitor loop (`is_recording = False`,
`audio_start_time = None`, `last_audio_time = None`). -/
def initAudio : AudioState := ⟨false, none, none⟩

/-- A marker write performed by `audio-monitor.py`: both the
`/tmp/meeting_trigger` and `/tmp/meeting_stop` writes carry
`str(current_time)`. -/
inductive AudioEvent where
  | start (time : ℚ)
  | stop (time : ℚ)
deriving DecidableEq

/-- One iteration of the `while True` loop of `audio-monitor.py`'s `main`, on a
sample `(now, level)`.  Above-threshold branch: when not recording, a `None`
start time is set to `now` (`if audio_start_time is None`), otherwise the
sustained check `now - audio_start_time >= min_duration` fires the start
transition; `last_audio_time = now` on every loud sample.  At-or-below
threshold branch: `if is_recording and last_audio_time` guards the silence
check `now - last_audio_time >= max_silence` which fires the stop transition
(clearing `audio_start_time`); `elif not is_recording` resets
`audio_start_time` to `None`. -/
def audioStep (threshold_db min_duration max_silence : ℚ) (st : AudioState)
    (now level : ℚ) : AudioState × List AudioEvent :=
  if level > threshold_db then
    let p : AudioState × List AudioEvent :=
      if !st.is_recording then
        match st.audio_start_time with
        | none => ({ st with audio_start_time := some now }, [])
        | some s =>
          if now - s ≥ min_duration then
            ({ st with is_recording := true }, [AudioEvent.start now])
          else (st, [])
      else (st, [])
    ({ p.1 with last_audio_time := some now }, p.2)
  else
    if st.is_recording && pyTruthy st.last_audio_time then
      if now - (st.last_audio_time.getD 0) ≥ max_silence then
        ({ st with is_recording := false, audio_start_time := none },
          [AudioEvent.stop now])
      else (st, [])
    else if !st.is_recording then
      ({ st with audio_start_time := none }, [])
    else (st, [])

/-- The audio-monitor loop run over a finite list of samples `(now, level)`,
collecting the marker writes in order. -/
def runAudio (threshold_db min_duration max_silence : ℚ) :
    AudioState → List (ℚ × ℚ) → AudioState × List AudioEvent
  | st, [] => (st, [])
  | st, (now, level) :: rest =>
    let p := audioStep threshold_db min_duration max_silence st now level
    let q := runAudio threshold_db min_duration max_silence p.1 rest
    (q.1, p.2 ++ q.2)

/-! ## The signal publisher (marker-file writes)

Both monitors publish a transition by opening a fixed path in `"w"`
(truncate/overwrite) mode and writing a timestamp plus a short detail:
`/tmp/meeting_trigger` for a start, `/tmp/meeting_stop` for a stop. -/

/-- Which marker a transition writes. -/
inductive MarkerKind where
  | start
  | stop
deriving DecidableEq

/-- Marker content: the event timestamp plus the free-text detail
(the triggering app name for an app-monitor start, empty otherwise). -/
structure Marker where
  time : ℚ
  detail : List Char
deriving DecidableEq

/-- The fixed path each marker kind is written to. -/
def markerPath : MarkerKind → String
  | MarkerKind.start => "/tmp/meeting_trigger"
  | MarkerKind.stop => "/tmp/meeting_stop"

/-- The filesystem as seen by the publisher and its consumer: each path holds
at most one marker. -/
def MarkerFs : Type := String → Option Marker

/-- `publish`: `open(markerPath kind, "w")` plus `write` — an unconditional
overwrite of the single location belonging to `kind`. -/
def publish (fs : MarkerFs) (kind : MarkerKind) (m : Marker) : MarkerFs :=
  fun p => if p = markerPath kind then some m else fs p

/-! ## Failure-injected runs

`open` or `write` on a marker path can raise `OSError`.  In both scripts every
marker write happens inside the `try:` surrounding the `while True` loop, whose
only handlers are `except KeyboardInterrupt` and `except Exception as e:
log(...); raise` — so a failed write escapes the loop, is logged once, and is
re-raised, terminating the process.  Each loop input carries a `pubOk` flag
telling whether a marker write attempted at that iteration succeeds. -/

/-- Result of running a monitor loop with injected publish failures:
the final state, the marker writes that succeeded, how many iterations
completed, and whether the loop was torn down by a logged-and-reraised
exception (`except Exception as e: log(...); raise`). -/
structure FallibleRun (σ ε : Type) where
  state : σ
  events : List ε
  processed : ℕ
  fatalLogged : Bool
deriving DecidableEq

/-- One app-monitor iteration with a `pubOk` flag: if the iteration attempts a
marker write and the write fails, the iteration raises instead of returning. -/
def appStepE (monitored_apps meeting_keywords : List (List Char)) (st : AppState)
    (now : ℚ) (app_name window_title : Option (List Char)) (pubOk : Bool) :
    Option (AppState × List AppEvent) :=
  let p := appStep monitored_apps meeting_keywords st now app_name window_title
  if p.2 ≠ [] && !pubOk then none else some p

/-- The app-monitor loop with injected publish failures: a raising iteration
ends the run (the exception is logged by the outer handler and re-raised). -/
def runAppE (monitored_apps meeting_keywords : List (List Char)) :
    AppState → List ((ℚ × Option (List Char) × Option (List Char)) × Bool) →
    FallibleRun AppState AppEvent
  | st, [] => ⟨st, [], 0, false⟩
  | st, (inp, pubOk) :: rest =>
    match appStepE monitored_apps meeting_keywords st inp.1 inp.2.1 inp.2.2 pubOk with
    | none => ⟨st, [], 0, true⟩
    | some p =>
      let r := runAppE monitored_apps meeting_keywords p.1 rest
      ⟨r.state, p.2 ++ r.events, r.processed + 1, r.fatalLogged⟩

/-- One audio-monitor iteration with a `pubOk` flag, as in `appStepE`. -/
def audioStepE (threshold_db min_duration max_silence : ℚ) (st : AudioState)
    (now level : ℚ) (pubOk : Bool) : Option (AudioState × List AudioEvent) :=
  let p := audioStep threshold_db min_duration max_silence st now level
  if p.2 ≠ [] && !pubOk then none else some p

/-- The audio-monitor loop with injected publish failures. -/
def runAudioE (threshold_db min_duration max_silence : ℚ) :
    AudioState → List ((ℚ × ℚ) × Bool) → FallibleRun AudioState AudioEvent
  | st, [] => ⟨st, [], 0, false⟩
  | st, ((now, level), pubOk) :: rest =>
    match audioStepE threshold_db min_duration max_silence st now level pubOk with
    | none => ⟨st, [], 0, true⟩
    | some p =>
      let r := runAudioE threshold_db min_duration max_silence p.1 rest
      ⟨r.state, p.2 ++ r.events, r.processed + 1, r.fatalLogged⟩

/-! ## Startup configuration loading

`app-monitor.py`'s `load_config` opens `config/apps.json` and
`config/settings.json` and `json.load`s them; `audio-monitor.py`'s opens
`config/settings.json`.  A missing file raises `FileNotFoundError`, malformed
JSON raises `json.JSONDecodeError`, and a missing key raises `KeyError`; all
are raised by `main` **before** the `try:`/`while True:` polling loop, no
handler catches them, so the interpreter exits non-zero. -/

/-- Why loading the configuration failed. -/
inductive ConfigError where
  | missingFile
  | malformed
deriving DecidableEq

/-- The configuration `app-monitor.py` reads:
`monitored_apps` and `meeting_keywords` from `apps.json`. -/
structure AppConfig where
  monitored_apps : List (List Char)
  meeting_keywords : List (List Char)

/-- The configuration `audio-monitor.py` reads from `settings.json`:
`threshold_db`, `min_duration_seconds`, `max_silence_seconds`. -/
structure AudioConfig where
  threshold_db : ℚ
  min_duration : ℚ
  max_silence : ℚ

/-- A configuration file on disk: absent, present-but-malformed, or parsed. -/
inductive ConfigFile (α : Type) where
  | missing
  | garbled
  | parsed (value : α)

/-- `load_config` for a monitor expecting a configuration of type `α`:
`open` raises on a missing file, `json.load` raises on malformed content. -/
def load_config {α : Type} : ConfigFile α → Except ConfigError α
  | ConfigFile.missing => Except.error ConfigError.missingFile
  | ConfigFile.garbled => Except.error ConfigError.malformed
  | ConfigFile.parsed v => Except.ok v

/-- `app-monitor.py`'s `main` up to loop exit: configuration loading is the
first statement; only on success is the polling loop entered. -/
def appMain (file : ConfigFile AppConfig)
    (polls : List (ℚ × Option (List Char) × Option (List Char))) :
    Except ConfigError (AppState × List AppEvent) :=
  match load_config file with
  | Except.error e => Except.error e
  | Except.ok cfg =>
    Except.ok (runApp cfg.monitored_apps cfg.meeting_keywords initApp polls)

/-- `audio-monitor.py`'s `main` up to loop exit, as in `appMain`. -/
def audioMain (file : ConfigFile AudioConfig) (samples : List (ℚ × ℚ)) :
    Except ConfigError (AudioState × List AudioEvent) :=
  match load_config file with
  | Except.error e => Except.error e
  | Except.ok cfg =>
    Except.ok (runAudio cfg.threshold_db cfg.min_duration cfg.max_silence
      initAudio samples)

/-- The interpreter's exit code for a monitor `main`: `0` only when no
uncaught exception escaped; an uncaught startup error exits non-zero. -/
def exitCode {α : Type} : Except ConfigError α → ℕ
  | Except.error _ => 1
  | Except.ok _ => 0

/-! ## Definitions supporting the claim statements -/

/-- The loop invariant of `app-monitor.py`: `meeting_active` holds exactly
when `meeting_start_time` is set. -/
def AppInv (st : AppState) : Prop :=
  st.meeting_active = true ↔ st.meeting_start_time.isSome = true

/-- The loop invariant of `audio-monitor.py`: while `is_recording`, both
`audio_start_time` and `last_audio_time` are set. -/
def AudioInv (st : AudioState) : Prop :=
  st.is_recording = true →
    st.audio_start_time.isSome = true ∧ st.last_audio_time.isSome = true

/-- All samples in `l` are strictly above the threshold. -/
def allLoud (threshold_db : ℚ) (l : List (ℚ × ℚ)) : Prop :=
  ∀ x ∈ l, x.2 > threshold_db

/-- A contiguous run of above-threshold samples inside `samples`, spanning at
least `min_duration` from its first sample to its last, whose last sample is
taken at time `τ`. -/
def sustainedWindow (threshold_db min_duration : ℚ)
    (samples : List (ℚ × ℚ)) (τ : ℚ) : Prop :=
  ∃ pre h mid y post,
    samples = pre ++ h :: (mid ++ y :: post) ∧
    allLoud threshold_db (h :: (mid ++ [y])) ∧
    τ = y.1 ∧ y.1 - h.1 ≥ min_duration

/-- A contiguous run of above-threshold samples at the very front of
`samples`, ending at time `τ`, with `τ` at least `min_duration` after the
candidate-start instant `s` carried in from the monitor state. -/
def prefixWindowFrom (threshold_db min_duration s : ℚ)
    (samples : List (ℚ × ℚ)) (τ : ℚ) : Prop :=
  ∃ mid y post,
    samples = mid ++ y :: post ∧
    allLoud threshold_db (mid ++ [y]) ∧
    τ = y.1 ∧ τ - s ≥ min_duration

/-- The app name `"Zoom"`. -/
def zoomS : List Char := "Zoom".data

/-- The app name `"Finder"`. -/
def finderS : List Char := "Finder".data

/-- A 3-second-cadence poll stream in which the foreground app alternates
between `"Zoom"` and `"Finder"` at every poll, so the classified state
toggles off again after only 3 seconds of each indicating period. -/
def c2stream : List (ℚ × Option (List Char) × Option (List Char)) :=
  [(100, some zoomS, none), (103, some finderS, none),
   (106, some zoomS, none), (109, some finderS, none),
   (112, some zoomS, none), (115, some finderS, none),
   (118, some zoomS, none), (121, some finderS, none),
   (124, some zoomS, none), (127, some finderS, none),
   (130, some zoomS, none), (133, some finderS, none)]

/-- The 1-second-cadence audio sample stream `[-30]*6 ++ [-70]*12` of §8 of
the spec, with sample `i` taken at time `i`. -/
def c6stream : List (ℚ × ℚ) :=
  [(0, -30), (1, -30), (2, -30), (3, -30), (4, -30), (5, -30),
   (6, -70), (7, -70), (8, -70), (9, -70), (10, -70), (11, -70),
   (12, -70), (13, -70), (14, -70), (15, -70), (16, -70), (17, -70)]

/-- Poll stream with publish-success flags: at the first poll `"Zoom"` comes
to the foreground (a start transition, hence a marker write) but the marker
write fails; the second poll would be processed only if the loop survived. -/
def c5inputs : List ((ℚ × Option (List Char) × Option (List Char)) × Bool) :=
  [((100, some zoomS, none), false), ((103, some zoomS, none), true)]

end Transcriber

namespace Transcriber

example :
    check_meeting_activity (some "Google Chrome".data)
      (some "Weekly Sync - Zoom Meeting".data)
      ["Google Chrome".data] ["zoom".data] = true := by decide

example :
    check_meeting_activity (some "Google Chrome".data)
      (some "Random Article".data)
      ["Google Chrome".data] ["zoom".data] = false := by decide

example :
    check_meeting_activity (some "zoom.us".data) none
      ["zoom.us".data] ["zoom".data] = true := by decide

/-! ### Branch characterizations of the two step functions -/

theorem audioStep_loud_first (th mind maxs : ℚ) (st : AudioState) (now level : ℚ)
    (hl : level > th) (hr : st.is_recording = false)
    (hs : st.audio_start_time = none) :
    audioStep th mind maxs st now level
      = ({ st with audio_start_time := some now, last_audio_time := some now },
        []) := by
  simp [audioStep, hl, hr, hs]

theorem audioStep_loud_fire (th mind maxs : ℚ) (st : AudioState) (now level s : ℚ)
    (hl : level > th) (hr : st.is_recording = false)
    (hs : st.audio_start_time = some s) (hge : now - s ≥ mind) :
    audioStep th mind maxs st now level
      = ({ st with is_recording := true, last_audio_time := some now },
        [AudioEvent.start now]) := by
  simp [audioStep, hl, hr, hs, hge]

theorem audioStep_loud_wait (th mind maxs : ℚ) (st : AudioState) (now level s : ℚ)
    (hl : level > th) (hr : st.is_recording = false)
    (hs : st.audio_start_time = some s) (hlt : ¬ now - s ≥ mind) :
    audioStep th mind maxs st now level
      = ({ st with last_audio_time := some now }, []) := by
  simp [audioStep, hl, hr, hs, hlt]

theorem audioStep_loud_rec (th mind maxs : ℚ) (st : AudioState) (now level : ℚ)
    (hl : level > th) (hr : st.is_recording = true) :
    audioStep th mind maxs st now level
      = ({ st with last_audio_time := some now }, []) := by
  simp [audioStep, hl, hr]

theorem audioStep_quiet_stop (th mind maxs : ℚ) (st : AudioState) (now level : ℚ)
    (hl : ¬ level > th) (hr : st.is_recording = true)
    (ht : pyTruthy st.last_audio_time = true)
    (hge : now - (st.last_audio_time.getD 0) ≥ maxs) :
    audioStep th mind maxs st now level
      = ({ st with is_recording := false, audio_start_time := none },
        [AudioEvent.stop now]) := by
  simp [audioStep, hl, hr, ht, hge]

theorem audioStep_quiet_hold (th mind maxs : ℚ) (st : AudioState) (now level : ℚ)
    (hl : ¬ level > th) (hr : st.is_recording = true)
    (ht : pyTruthy st.last_audio_time = true)
    (hlt : ¬ now - (st.last_audio_time.getD 0) ≥ maxs) :
    audioStep th mind maxs st now level = (st, []) := by
  simp [audioStep, hl, hr, ht, hlt]

theorem audioStep_quiet_stale (th mind maxs : ℚ) (st : AudioState) (now level : ℚ)
    (hl : ¬ level > th) (hr : st.is_recording = true)
    (ht : pyTruthy st.last_audio_time = false) :
    audioStep th mind maxs st now level = (st, []) := by
  simp [audioStep, hl, hr, ht]

theorem audioStep_quiet_reset (th mind maxs : ℚ) (st : AudioState) (now level : ℚ)
    (hl : ¬ level > th) (hr : st.is_recording = false) :
    audioStep th mind maxs st now level
      = ({ st with audio_start_time := none }, []) := by
  simp [audioStep, hl, hr]

theorem appStep_start (m k : List (List Char)) (st : AppState) (now : ℚ)
    (a w : Option (List Char))
    (hm : check_meeting_activity a w m k = true)
    (ha : st.meeting_active = false) :
    appStep m k st now a w
      = (⟨a, true, some now⟩, [AppEvent.start now (a.getD [])]) := by
  simp [appStep, hm, ha]

theorem appStep_stop (m k : List (List Char)) (st : AppState) (now : ℚ)
    (a w : Option (List Char))
    (hm : check_meeting_activity a w m k = false)
    (ha : st.meeting_active = true)
    (ht : pyTruthy st.meeting_start_time = true)
    (hgt : now - (st.meeting_start_time.getD 0) > 30) :
    appStep m k st now a w
      = (⟨a, false, none⟩, [AppEvent.stop now]) := by
  simp [appStep, hm, ha, ht, hgt]

theorem appStep_stop_hold (m k : List (List Char)) (st : AppState) (now : ℚ)
    (a w : Option (List Char))
    (hm : check_meeting_activity a w m k = false)
    (ha : st.meeting_active = true)
    (hc : ¬ (pyTruthy st.meeting_start_time = true
      ∧ now - (st.meeting_start_time.getD 0) > 30)) :
    appStep m k st now a w = ({ st with current_app := a }, []) := by
  by_cases ht : pyTruthy st.meeting_start_time = true
  · have hgt : ¬ now - (st.meeting_start_time.getD 0) > 30 := fun hx => hc ⟨ht, hx⟩
    simp [appStep, hm, ha, ht, hgt]
  · simp only [Bool.not_eq_true] at ht
    simp [appStep, hm, ha, ht]

theorem appStep_idle_active (m k : List (List Char)) (st : AppState) (now : ℚ)
    (a w : Option (List Char))
    (hm : check_meeting_activity a w m k = true)
    (ha : st.meeting_active = true) :
    appStep m k st now a w = ({ st with current_app := a }, []) := by
  simp [appStep, hm, ha]

theorem appStep_idle_inactive (m k : List (List Char)) (st : AppState) (now : ℚ)
    (a w : Option (List Char))
    (hm : check_meeting_activity a w m k = false)
    (ha : st.meeting_active = false) :
    appStep m k st now a w = ({ st with current_app := a }, []) := by
  simp [appStep, hm, ha]

/-! ### C1 — the per-sample classification rule -/

/-- **C1** counterexample.  The claim reads the browser case as "meeting-
indicating iff `windowTitle` is *present* and contains some member of
`meetingKeywords` case-insensitively as a substring".  Take the monitored
browser `"Google Chrome"`, the present-but-empty window title `""` and the
keyword list `[""]`: the empty keyword is a substring of the empty title, so
the claim predicts meeting-indicating, but `check_meeting_activity` tests
`if window_title:` — Python truthiness — so the empty title is skipped and
the result is `False`. -/
theorem c1_counterexample :
    check_meeting_activity (some "Google Chrome".data) (some ([] : List Char))
        ["Google Chrome".data] [([] : List Char)] = false ∧
    "Google Chrome".data ∈ browser_list ∧
    "Google Chrome".data ∈ ["Google Chrome".data] ∧
    (some ([] : List Char)).isSome = true ∧
    ([] : List Char) ∈ [([] : List Char)] ∧
    List.IsInfix (lowerStr []) (lowerStr []) :=
  ⟨by decide, by decide, by decide, rfl, by decide, by decide⟩

/-- **C1** (amended).  The classification of a poll sample: not
meeting-indicating when `appName` is absent, empty, or not in
`monitoredApps`; for a monitored browser, meeting-indicating iff
`windowTitle` is present, non-empty, and contains some member of
`meetingKeywords` case-insensitively as a substring; for any other monitored
app, meeting-indicating unconditionally. -/
theorem c1_classification (app_name window_title : Option (List Char))
    (monitored_apps meeting_keywords : List (List Char)) :
    check_meeting_activity app_name window_title monitored_apps
        meeting_keywords = true ↔
      ∃ app, app_name = some app ∧ app ≠ [] ∧ app ∈ monitored_apps ∧
        (app ∈ browser_list →
          ∃ title, window_title = some title ∧ title ≠ [] ∧
            ∃ kw ∈ meeting_keywords,
              List.IsInfix (lowerStr kw) (lowerStr title)) := by
  cases app_name with
  | none => simp [check_meeting_activity]
  | some app =>
    simp only [check_meeting_activity]
    by_cases hemp : app = []
    · simp [hemp]
    · by_cases hmem : app ∈ monitored_apps
      · by_cases hbr : app ∈ browser_list
        · cases window_title with
          | none => simp [hemp, hmem, hbr]
          | some title =>
            by_cases htemp : title = []
            · simp [hemp, hmem, hbr, htemp]
            · simp [hemp, hmem, hbr, htemp, pyIn, List.any_eq_true]
        · simp [hemp, hmem, hbr]
      · simp [hemp, hmem]

/-! ### C4 — loud samples refresh `last_audio_time`; the silence timeout -/

/-- **C4**.  `last_audio_time` is set to the current time on every sample
strictly above the threshold (recording or not); and when recording, a sample
at or below the threshold flips the monitor to not-recording, emits `Stop`
and clears `audio_start_time` exactly when `now - last_audio_time ≥
max_silence` (for any genuine timestamp `0 < t`; `0.0` would be falsy under
the `if is_recording and last_audio_time:` guard). -/
theorem c4_last_signal_and_silence (threshold_db min_duration max_silence : ℚ) :
    (∀ (st : AudioState) (now level : ℚ), level > threshold_db →
      (audioStep threshold_db min_duration max_silence st now level).1.last_audio_time
        = some now) ∧
    (∀ (st : AudioState) (now level t : ℚ), st.is_recording = true →
      st.last_audio_time = some t → 0 < t → level ≤ threshold_db →
      (audioStep threshold_db min_duration max_silence st now level
          = ({ st with is_recording := false, audio_start_time := none },
            [AudioEvent.stop now])
        ↔ now - t ≥ max_silence)) := by
  constructor
  · intro st now level hl
    simp [audioStep, hl]
  · intro st now level t hr hlast ht hlev
    have hl : ¬ level > threshold_db := not_lt.mpr hlev
    have htr : pyTruthy st.last_audio_time = true := by
      simp [hlast, pyTruthy, ne_of_gt ht]
    by_cases hc : now - t ≥ max_silence
    · have hget : st.last_audio_time.getD 0 = t := by simp [hlast]
      rw [audioStep_quiet_stop threshold_db min_duration max_silence st now level
        hl hr htr (by rw [hget]; exact hc)]
      simp [hc]
    · have hget : st.last_audio_time.getD 0 = t := by simp [hlast]
      rw [audioStep_quiet_hold threshold_db min_duration max_silence st now level
        hl hr htr (by rw [hget]; exact hc)]
      simp only [iff_false, hc]
      intro hx
      have : st.is_recording = false := by
        have := congrArg (fun p => p.1.is_recording) hx
        simpa using this
      rw [hr] at this
      exact Bool.noConfusion this

/-- **C4** witness: the two parts of `c4_last_signal_and_silence` applied at
concrete inputs. -/
theorem c4_witness :
    (audioStep (-50) 5 10 initAudio 7 (-30)).1.last_audio_time = some 7 ∧
    (audioStep (-50) 5 10 ⟨true, some 2, some 3⟩ 13 (-60)
        = (⟨false, none, some 3⟩, [AudioEvent.stop 13])
      ↔ (13 : ℚ) - 3 ≥ 10) :=
  ⟨(c4_last_signal_and_silence (-50) 5 10).1 initAudio 7 (-30) (by norm_num),
    (c4_last_signal_and_silence (-50) 5 10).2 ⟨true, some 2, some 3⟩ 13 (-60) 3
      rfl rfl (by norm_num) (by norm_num)⟩

/-! ### C7 — marker-write semantics of the publisher -/

/-- **C7**.  Publishing writes to the one location belonging to the event
kind; the start and stop locations are distinct; publishing the same `Start`
twice in a row is exactly a single overwrite whose observable content is the
last write (and, being a total store update, never an error); and when the
second write's timestamp is not older, the consumer observes non-decreasing
timestamps. -/
theorem c7_publish_overwrite (fs : MarkerFs) (m1 m2 : Marker) :
    publish (publish fs MarkerKind.start m1) MarkerKind.start m2
        = publish fs MarkerKind.start m2 ∧
    publish (publish fs MarkerKind.start m1) MarkerKind.start m2
        (markerPath MarkerKind.start) = some m2 ∧
    (∀ p, p ≠ markerPath MarkerKind.start →
      publish fs MarkerKind.start m1 p = fs p) ∧
    markerPath MarkerKind.start ≠ markerPath MarkerKind.stop ∧
    (m1.time ≤ m2.time → ∀ u v : Marker,
      publish fs MarkerKind.start m1 (markerPath MarkerKind.start) = some u →
      publish (publish fs MarkerKind.start m1) MarkerKind.start m2
          (markerPath MarkerKind.start) = some v →
      u.time ≤ v.time) := by
  refine ⟨funext fun p => ?_, by simp [publish], fun p hp => ?_,
    by simp [markerPath], ?_⟩
  · by_cases hp : p = markerPath MarkerKind.start <;> simp [publish, hp]
  · simp [publish, hp]
  · intro hle u v hu hv
    simp only [publish, if_pos, Option.some.injEq] at hu hv
    subst hu
    subst hv
    exact hle

/-- **C7** witness: `c7_publish_overwrite` applied to the empty store and two
start markers with timestamps `1 ≤ 2`. -/
theorem c7_witness :
    publish (publish (fun _ => none) MarkerKind.start ⟨1, []⟩)
        MarkerKind.start ⟨2, []⟩ (markerPath MarkerKind.start)
      = some ⟨2, []⟩ ∧
    ∀ u v : Marker,
      publish (fun _ => none) MarkerKind.start ⟨1, []⟩
          (markerPath MarkerKind.start) = some u →
      publish (publish (fun _ => none) MarkerKind.start ⟨1, []⟩)
          MarkerKind.start ⟨2, []⟩ (markerPath MarkerKind.start) = some v →
      u.time ≤ v.time :=
  ⟨(c7_publish_overwrite (fun _ => none) ⟨1, []⟩ ⟨2, []⟩).2.1,
    (c7_publish_overwrite (fun _ => none) ⟨1, []⟩ ⟨2, []⟩).2.2.2.2
      (by norm_num)⟩

/-! ### C8 — configuration errors are fatal at startup -/

/-- **C8**.  If configuration loading fails (missing or malformed file), each
monitor's `main` propagates the error: the polling loop is never entered (the
result is the error itself, produced before any poll is consumed) and the
process exit code is non-zero.  In the scripts the `load_config()` call is the
first statement of `main`, outside the `try:` that wraps the loop, and no
handler catches `FileNotFoundError`/`json.JSONDecodeError`. -/
theorem c8_config_error_fatal
    (fileA : ConfigFile AppConfig) (fileB : ConfigFile AudioConfig)
    (polls : List (ℚ × Option (List Char) × Option (List Char)))
    (samples : List (ℚ × ℚ)) (e e' : ConfigError)
    (hA : load_config fileA = Except.error e)
    (hB : load_config fileB = Except.error e') :
    appMain fileA polls = Except.error e ∧
    exitCode (appMain fileA polls) ≠ 0 ∧
    audioMain fileB samples = Except.error e' ∧
    exitCode (audioMain fileB samples) ≠ 0 := by
  refine ⟨?_, ?_, ?_, ?_⟩ <;> simp [appMain, audioMain, hA, hB, exitCode]

/-- **C8** witness: `c8_config_error_fatal` at a missing `apps.json` and a
malformed `settings.json`, with a nonempty poll list. -/
theorem c8_witness :
    appMain ConfigFile.missing [(1, none, none)]
        = Except.error ConfigError.missingFile ∧
    exitCode (appMain ConfigFile.missing [(1, none, none)]) ≠ 0 ∧
    audioMain ConfigFile.garbled [(1, -30)]
        = Except.error ConfigError.malformed ∧
    exitCode (audioMain ConfigFile.garbled [(1, -30)]) ≠ 0 :=
  c8_config_error_fatal ConfigFile.missing ConfigFile.garbled
    [(1, none, none)] [(1, -30)] ConfigError.missingFile ConfigError.malformed
    rfl rfl

/-! ### C10 — the state invariants of the two loops -/

/-- **C10**.  `meeting_active ↔ meeting_start_time` set: established by the
app monitor's initial state and preserved by every iteration; and in the
audio monitor, whenever `is_recording` holds, both `audio_start_time` and
`last_audio_time` are set, likewise established initially and preserved. -/
theorem c10_invariants :
    AppInv initApp ∧
    (∀ (m k : List (List Char)) (st : AppState) (now : ℚ)
        (a w : Option (List Char)),
      AppInv st → AppInv (appStep m k st now a w).1) ∧
    AudioInv initAudio ∧
    (∀ (th mind maxs : ℚ) (st : AudioState) (now level : ℚ),
      AudioInv st → AudioInv (audioStep th mind maxs st now level).1) := by
  refine ⟨by simp [AppInv, initApp], ?_, by simp [AudioInv, initAudio], ?_⟩
  · intro m k st now a w hinv
    by_cases hm : check_meeting_activity a w m k = true
    · by_cases ha : st.meeting_active = true
      · rw [appStep_idle_active m k st now a w hm ha]
        exact hinv
      · rw [Bool.not_eq_true] at ha
        rw [appStep_start m k st now a w hm ha]
        simp [AppInv]
    · rw [Bool.not_eq_true] at hm
      by_cases ha : st.meeting_active = true
      · by_cases hc : pyTruthy st.meeting_start_time = true
            ∧ now - (st.meeting_start_time.getD 0) > 30
        · rw [appStep_stop m k st now a w hm ha hc.1 hc.2]
          simp [AppInv]
        · rw [appStep_stop_hold m k st now a w hm ha hc]
          exact hinv
      · rw [Bool.not_eq_true] at ha
        rw [appStep_idle_inactive m k st now a w hm ha]
        exact hinv
  · intro th mind maxs st now level hinv
    by_cases hl : level > th
    · by_cases hr : st.is_recording = true
      · rw [audioStep_loud_rec th mind maxs st now level hl hr]
        intro _
        exact ⟨(hinv hr).1, by simp⟩
      · rw [Bool.not_eq_true] at hr
        cases hs : st.audio_start_time with
        | none =>
          rw [audioStep_loud_first th mind maxs st now level hl hr hs]
          intro hfalse
          simp only at hfalse
          rw [hr] at hfalse
          exact Bool.noConfusion hfalse
        | some s =>
          by_cases hge : now - s ≥ mind
          · rw [audioStep_loud_fire th mind maxs st now level s hl hr hs hge]
            intro _
            exact ⟨by simp [hs], by simp⟩
          · rw [audioStep_loud_wait th mind maxs st now level s hl hr hs hge]
            intro hfalse
            simp only at hfalse
            rw [hr] at hfalse
            exact Bool.noConfusion hfalse
    · by_cases hr : st.is_recording = true
      · by_cases ht : pyTruthy st.last_audio_time = true
        · by_cases hge : now - (st.last_audio_time.getD 0) ≥ maxs
          · rw [audioStep_quiet_stop th mind maxs st now level hl hr ht hge]
            intro hfalse
            exact Bool.noConfusion hfalse
          · rw [audioStep_quiet_hold th mind maxs st now level hl hr ht hge]
            exact hinv
        · rw [audioStep_quiet_stale th mind maxs st now level hl hr
            (Bool.not_eq_true _ ▸ ht)]
          exact hinv
      · rw [Bool.not_eq_true] at hr
        rw [audioStep_quiet_reset th mind maxs st now level hl hr]
        intro hfalse
        simp only at hfalse
        rw [hr] at hfalse
        exact Bool.noConfusion hfalse

/-- **C10** witness: the invariants applied across one concrete start
transition of each monitor. -/
theorem c10_witness :
    AppInv (appStep ["Zoom".data] [] initApp 100 (some "Zoom".data) none).1 ∧
    AudioInv (audioStep (-50) 5 10 ⟨false, some 0, some 0⟩ 6 (-30)).1 :=
  ⟨c10_invariants.2.1 ["Zoom".data] [] initApp 100 (some "Zoom".data) none
      c10_invariants.1,
    c10_invariants.2.2.2 (-50) 5 10 ⟨false, some 0, some 0⟩ 6 (-30)
      (fun h => Bool.noConfusion h)⟩

/-! ### C9 — repeated probe failure is harmless -/

/-- **C9**.  If every poll yields `(None, None)` (the probe failed), the
app-monitor loop run from its initial state processes every poll, never
raises, and emits no `Start` and no `Stop`; the state never leaves its
initial value. -/
theorem c9_probe_none_harmless (m k : List (List Char))
    (inputs : List ((ℚ × Option (List Char) × Option (List Char)) × Bool))
    (h : ∀ x ∈ inputs, x.1.2.1 = none ∧ x.1.2.2 = none) :
    runAppE m k initApp inputs = ⟨initApp, [], inputs.length, false⟩ := by
  induction inputs with
  | nil => rfl
  | cons x xs ih =>
    obtain ⟨⟨now, a, w⟩, ok⟩ := x
    obtain ⟨ha, hw⟩ := h _ (List.mem_cons_self _ _)
    simp only at ha hw
    subst ha
    subst hw
    have hstep : appStepE m k initApp now none none ok = some (initApp, []) := by
      cases ok <;> rfl
    have hrest : ∀ x ∈ xs, x.1.2.1 = none ∧ x.1.2.2 = none :=
      fun y hy => h y (List.mem_cons_of_mem _ hy)
    simp [runAppE, hstep, ih hrest, List.length_cons]

/-- **C9** witness: three probe-failure polls, with a publish that would
fail at the second poll (never attempted, so irrelevant). -/
theorem c9_witness :
    runAppE ["Zoom".data] [] initApp
        [((1, none, none), true), ((4, none, none), false),
          ((7, none, none), true)]
      = ⟨initApp, [], 3, false⟩ :=
  c9_probe_none_harmless ["Zoom".data] []
    [((1, none, none), true), ((4, none, none), false), ((7, none, none), true)]
    (by intro x hx; fin_cases hx <;> exact ⟨rfl, rfl⟩)

/-! ### C5 — a failed marker write kills the monitor -/

/-- **C5** counterexample.  At the first poll `"Zoom"` comes to the
foreground; the start transition attempts the marker write and the write
fails.  The claim says the failure is logged and the loop continues; in the
scripts the only handler around the loop is `except Exception as e:
log(...); raise`, so the run ends at that iteration: the exception is
logged and re-raised (`fatalLogged`), zero iterations complete, and the
second poll of the two-poll input is never processed. -/
theorem c5_counterexample :
    (runAppE [zoomS] [] initApp c5inputs).fatalLogged = true ∧
    (runAppE [zoomS] [] initApp c5inputs).processed = 0 ∧
    c5inputs.length = 2 := by
  refine ⟨?_, ?_, rfl⟩ <;> rfl

/-- **C5** (amended).  When a marker write fails, the exception escapes the
polling loop; the monitor logs it once and re-raises it, terminating the
process at that iteration — publish failure is fatal, and the remaining
polls are not processed.  (This holds for both monitors.) -/
theorem c5_publish_failure_fatal :
    (∀ (m k : List (List Char)) (st : AppState)
        (inp : (ℚ × Option (List Char) × Option (List Char)) × Bool)
        (rest : List ((ℚ × Option (List Char) × Option (List Char)) × Bool)),
      appStepE m k st inp.1.1 inp.1.2.1 inp.1.2.2 inp.2 = none →
      runAppE m k st (inp :: rest) = ⟨st, [], 0, true⟩) ∧
    (∀ (th mind maxs : ℚ) (st : AudioState) (inp : (ℚ × ℚ) × Bool)
        (rest : List ((ℚ × ℚ) × Bool)),
      audioStepE th mind maxs st inp.1.1 inp.1.2 inp.2 = none →
      runAudioE th mind maxs st (inp :: rest) = ⟨st, [], 0, true⟩) := by
  constructor
  · intro m k st inp rest h
    obtain ⟨⟨now, a, w⟩, ok⟩ := inp
    simp only at h
    simp [runAppE, h]
  · intro th mind maxs st inp rest h
    obtain ⟨⟨now, level⟩, ok⟩ := inp
    simp only at h
    simp [runAudioE, h]

/-- **C5** witness: `c5_publish_failure_fatal` applied to the concrete
failing-write poll of `c5inputs` and to an audio start transition whose
write fails. -/
theorem c5_witness :
    runAppE [zoomS] [] initApp c5inputs = ⟨initApp, [], 0, true⟩ ∧
    runAudioE (-50) 5 10 ⟨false, some 0, some 0⟩
        [((6, -30), false), ((7, -30), true)]
      = ⟨⟨false, some 0, some 0⟩, [], 0, true⟩ :=
  ⟨c5_publish_failure_fatal.1 [zoomS] [] initApp
      ((100, some zoomS, none), false) [((103, some zoomS, none), true)] rfl,
    c5_publish_failure_fatal.2 (-50) 5 10 ⟨false, some 0, some 0⟩
      ((6, -30), false) [((7, -30), true)]
      (by norm_num [audioStepE, audioStep, initAudio])⟩

/-! ### C6 — the worked audio scenario of §8 of the spec -/

set_option maxRecDepth 16000 in
/-- Evaluation of the audio monitor on the `[-30]*6 ++ [-70]*12` stream with
`threshold_db = -50`, `min_duration = 5`, `max_silence = 10`. -/
theorem runAudio_c6stream :
    (runAudio (-50) 5 10 initAudio c6stream).2
      = [AudioEvent.start 5, AudioEvent.stop 15] := by
  norm_num +decide [c6stream, runAudio, audioStep, initAudio, pyTruthy]

/-- **C6** counterexample.  On the §8 stream the code emits its `Stop` at
`t = 15` — `max_silence` measured from the *last loud sample* at `t = 5` —
not at `t = 16` (= first quiet sample `6` + `10`) as the claim computes;
no `Stop` event with timestamp `16` is ever emitted. -/
theorem c6_counterexample :
    AudioEvent.stop 16 ∉ (runAudio (-50) 5 10 initAudio c6stream).2 ∧
    AudioEvent.stop 15 ∈ (runAudio (-50) 5 10 initAudio c6stream).2 := by
  rw [runAudio_c6stream]
  constructor
  · intro h
    rcases List.mem_cons.mp h with h1 | h1
    · exact AudioEvent.noConfusion h1
    · have h2 := List.mem_singleton.mp h1
      have h3 : (16 : ℚ) = 15 := by injection h2
      norm_num at h3
  · norm_num

/-- **C6** (amended).  With `audioThresholdDb = -50`, `minSustainedSeconds =
5`, `maxSilenceSeconds = 10` and the 1-second stream `[-30]*6 ++ [-70]*12`
started inactive, exactly one `Start` is emitted, at `t = 5`, and exactly one
`Stop`, at `t = 15` (the silence timeout runs from the last above-threshold
sample at `t = 5`, not from the first below-threshold sample). -/
theorem c6_audio_scenario :
    (runAudio (-50) 5 10 initAudio c6stream).2
      = [AudioEvent.start 5, AudioEvent.stop 15] :=
  runAudio_c6stream

/-! ### C2 — the 30-second floor on the app monitor's `Stop` -/

theorem pyTruthy_eq_true (o : Option ℚ) :
    pyTruthy o = true ↔ ∃ s, o = some s ∧ s ≠ 0 := by
  cases o <;> simp [pyTruthy]

/-- Generalized over the entry state: any `Stop` at time `τ` in an
app-monitor run either follows a `Start` of the same run emitted at a time
`s` with `τ - s > 30`, or is justified by the entry state already being
active since such an `s`. -/
theorem runApp_stop_needs_elapsed (m k : List (List Char)) :
    ∀ (polls : List (ℚ × Option (List Char) × Option (List Char)))
      (st : AppState) (τ : ℚ),
      AppEvent.stop τ ∈ (runApp m k st polls).2 →
      (∃ s d, AppEvent.start s d ∈ (runApp m k st polls).2
        ∧ s ≠ 0 ∧ τ - s > 30) ∨
      (∃ s, st.meeting_active = true ∧ st.meeting_start_time = some s
        ∧ s ≠ 0 ∧ τ - s > 30) := by
  intro polls
  induction polls with
  | nil =>
    intro st τ h
    simp [runApp] at h
  | cons x xs ih =>
    intro st τ h
    obtain ⟨now, a, w⟩ := x
    by_cases hm : check_meeting_activity a w m k = true
    · by_cases ha : st.meeting_active = true
      · rw [runApp] at h ⊢
        simp only [appStep_idle_active m k st now a w hm ha] at h ⊢
        simp only [List.nil_append] at h ⊢
        rcases ih _ τ h with hl | ⟨s, h1, h2, h3, h4⟩
        · exact Or.inl hl
        · exact Or.inr ⟨s, by simpa using h1, by simpa using h2, h3, h4⟩
      · rw [Bool.not_eq_true] at ha
        rw [runApp] at h ⊢
        simp only [appStep_start m k st now a w hm ha] at h ⊢
        rcases List.mem_append.mp h with hev | htail
        · exact absurd (List.mem_singleton.mp hev) (fun hx => AppEvent.noConfusion hx)
        · rcases ih _ τ htail with ⟨s, d, hmem, h3, h4⟩ | ⟨s, h1, h2, h3, h4⟩
          · exact Or.inl ⟨s, d, List.mem_append.mpr (Or.inr hmem), h3, h4⟩
          · have hs : s = now := by
              simp only [Option.some.injEq] at h2
              exact h2.symm
            subst hs
            exact Or.inl ⟨s, a.getD [],
              List.mem_append.mpr (Or.inl (List.mem_singleton.mpr rfl)), h3, h4⟩
    · rw [Bool.not_eq_true] at hm
      by_cases ha : st.meeting_active = true
      · by_cases hc : pyTruthy st.meeting_start_time = true
            ∧ now - (st.meeting_start_time.getD 0) > 30
        · rw [runApp] at h ⊢
          simp only [appStep_stop m k st now a w hm ha hc.1 hc.2] at h ⊢
          rcases List.mem_append.mp h with hev | htail
          · have hτ : τ = now := by
              have := List.mem_singleton.mp hev
              injection this with h'
            subst hτ
            obtain ⟨s, hs, hs0⟩ := (pyTruthy_eq_true _).mp hc.1
            refine Or.inr ⟨s, ha, hs, hs0, ?_⟩
            have hgd : st.meeting_start_time.getD 0 = s := by simp [hs]
            rw [hgd] at hc
            exact hc.2
          · rcases ih _ τ htail with ⟨s, d, hmem, h3, h4⟩ | ⟨s, h1, _, _, _⟩
            · exact Or.inl ⟨s, d, List.mem_append.mpr (Or.inr hmem), h3, h4⟩
            · exact absurd h1 (by simp)
        · rw [runApp] at h ⊢
          simp only [appStep_stop_hold m k st now a w hm ha hc] at h ⊢
          simp only [List.nil_append] at h ⊢
          rcases ih _ τ h with hl | ⟨s, h1, h2, h3, h4⟩
          · exact Or.inl hl
          · exact Or.inr ⟨s, by simpa using h1, by simpa using h2, h3, h4⟩
      · rw [Bool.not_eq_true] at ha
        rw [runApp] at h ⊢
        simp only [appStep_idle_inactive m k st now a w hm ha] at h ⊢
        simp only [List.nil_append] at h ⊢
        rcases ih _ τ h with hl | ⟨s, h1, _, _, _⟩
        · exact Or.inl hl
        · have : st.meeting_active = true := by simpa using h1
          rw [ha] at this
          exact Bool.noConfusion this

/-- **C2** counterexample.  In `c2stream` the classified state toggles on for
only a single 3-second poll at a time (the classification sequence
alternates `true, false, true, false, …`), far below the 30-second floor,
yet the run started inactive emits a `Stop` — at `t = 133`, because
`meeting_start_time` was set at the `Start` (`t = 100`) and brief
not-indicating polls do not clear it, so `133 - 100 > 30` fires the stop
transition. -/
theorem c2_counterexample :
    (runApp [zoomS] [] initApp c2stream).2
      = [AppEvent.start 100 zoomS, AppEvent.stop 133] ∧
    c2stream.map
        (fun x => check_meeting_activity x.2.1 x.2.2 [zoomS] [])
      = [true, false, true, false, true, false,
          true, false, true, false, true, false] := by
  constructor
  · norm_num +decide [c2stream, runApp, appStep, initApp, pyTruthy,
      check_meeting_activity, zoomS, finderS, browser_list]
  · decide

/-- **C2** (amended).  A `Stop` at time `τ` is emitted only if the run
already emitted a `Start` at a time `s` with `τ - s` strictly greater than
the 30-second floor.  The floor is measured from `meeting_start_time` — set
when the monitor became active and *not* reset by brief not-indicating
polls — so sub-30-second classification flicker delays a `Stop` but does
not prevent one. -/
theorem c2_stop_only_after_start (m k : List (List Char))
    (polls : List (ℚ × Option (List Char) × Option (List Char))) (τ : ℚ)
    (h : AppEvent.stop τ ∈ (runApp m k initApp polls).2) :
    ∃ s d, AppEvent.start s d ∈ (runApp m k initApp polls).2 ∧ τ - s > 30 := by
  rcases runApp_stop_needs_elapsed m k polls initApp τ h with
    ⟨s, d, hmem, _, hgt⟩ | ⟨s, hact, _, _, _⟩
  · exact ⟨s, d, hmem, hgt⟩
  · exact absurd hact (by simp [initApp])

/-- **C2** witness: `c2_stop_only_after_start` at the flicker stream
`c2stream`, whose run does emit `Stop 133`. -/
theorem c2_witness :
    ∃ s d, AppEvent.start s d ∈ (runApp [zoomS] [] initApp c2stream).2
      ∧ (133 : ℚ) - s > 30 :=
  c2_stop_only_after_start [zoomS] [] c2stream 133
    (by norm_num +decide [c2stream, runApp, appStep, initApp, pyTruthy,
      check_meeting_activity, zoomS, finderS, browser_list])

/-! ### C3 — the start-side hysteresis of the audio monitor -/

theorem sustainedWindow_cons (th mind : ℚ) (x : ℚ × ℚ) (xs : List (ℚ × ℚ))
    (τ : ℚ) (h : sustainedWindow th mind xs τ) :
    sustainedWindow th mind (x :: xs) τ := by
  obtain ⟨pre, hd, mid, y, post, heq, hloud, hτ, hspan⟩ := h
  exact ⟨x :: pre, hd, mid, y, post, by rw [heq]; rfl, hloud, hτ, hspan⟩

theorem prefixWindowFrom_cons (th mind s : ℚ) (x : ℚ × ℚ) (xs : List (ℚ × ℚ))
    (τ : ℚ) (hx : x.2 > th) (h : prefixWindowFrom th mind s xs τ) :
    prefixWindowFrom th mind s (x :: xs) τ := by
  obtain ⟨mid, y, post, heq, hloud, hτ, hspan⟩ := h
  refine ⟨x :: mid, y, post, by rw [heq]; rfl, ?_, hτ, hspan⟩
  intro z hz
  rcases List.mem_cons.mp hz with hz | hz
  · rw [hz]; exact hx
  · exact hloud z hz

theorem prefixWindowFrom_head (th mind : ℚ) (x : ℚ × ℚ) (xs : List (ℚ × ℚ))
    (τ : ℚ) (hx : x.2 > th) (h : prefixWindowFrom th mind x.1 xs τ) :
    sustainedWindow th mind (x :: xs) τ := by
  obtain ⟨mid, y, post, heq, hloud, hτ, hspan⟩ := h
  refine ⟨[], x, mid, y, post, by rw [heq]; rfl, ?_, hτ, ?_⟩
  · intro z hz
    rcases List.mem_cons.mp hz with hz | hz
    · rw [hz]; exact hx
    · exact hloud z hz
  · rw [hτ] at hspan
    exact hspan

theorem prefixWindowFrom_single (th mind s now level : ℚ) (xs : List (ℚ × ℚ))
    (hl : level > th) (hge : now - s ≥ mind) :
    prefixWindowFrom th mind s ((now, level) :: xs) now := by
  refine ⟨[], (now, level), xs, rfl, ?_, rfl, hge⟩
  intro z hz
  simp only [List.nil_append, List.mem_singleton] at hz
  rw [hz]
  exact hl

/-- Generalized over the entry state: every `Start` the audio monitor emits
at time `τ` is justified either by a contiguous above-threshold window of
span at least `min_duration` inside the processed samples, or by a loud
prefix measured from the candidate-start instant already carried in the
entry state. -/
theorem runAudio_start_sound (th mind maxs : ℚ) :
    ∀ (samples : List (ℚ × ℚ)) (st : AudioState) (τ : ℚ),
      AudioEvent.start τ ∈ (runAudio th mind maxs st samples).2 →
      sustainedWindow th mind samples τ ∨
      (st.is_recording = false ∧ ∃ s, st.audio_start_time = some s ∧
        prefixWindowFrom th mind s samples τ) := by
  intro samples
  induction samples with
  | nil =>
    intro st τ h
    simp [runAudio] at h
  | cons x xs ih =>
    intro st τ h
    obtain ⟨now, level⟩ := x
    by_cases hl : level > th
    · by_cases hr : st.is_recording = true
      · rw [runAudio] at h
        simp only [audioStep_loud_rec th mind maxs st now level hl hr,
          List.nil_append] at h
        rcases ih _ τ h with hL | ⟨hrec, _⟩
        · exact Or.inl (sustainedWindow_cons th mind _ xs τ hL)
        · simp only at hrec
          rw [hr] at hrec
          exact Bool.noConfusion hrec
      · rw [Bool.not_eq_true] at hr
        cases hs : st.audio_start_time with
        | none =>
          rw [runAudio] at h
          simp only [audioStep_loud_first th mind maxs st now level hl hr hs,
            List.nil_append] at h
          rcases ih _ τ h with hL | ⟨_, s, hsome, hpw⟩
          · exact Or.inl (sustainedWindow_cons th mind _ xs τ hL)
          · simp only [Option.some.injEq] at hsome
            rw [← hsome] at hpw
            exact Or.inl (prefixWindowFrom_head th mind (now, level) xs τ hl hpw)
        | some s0 =>
          by_cases hge : now - s0 ≥ mind
          · rw [runAudio] at h
            simp only
              [audioStep_loud_fire th mind maxs st now level s0 hl hr hs hge] at h
            rcases List.mem_append.mp h with hev | htail
            · have hτ : τ = now := by
                have := List.mem_singleton.mp hev
                injection this with h'
              rw [hτ]
              exact Or.inr ⟨hr, s0, rfl,
                prefixWindowFrom_single th mind s0 now level xs hl hge⟩
            · rcases ih _ τ htail with hL | ⟨hrec, _⟩
              · exact Or.inl (sustainedWindow_cons th mind _ xs τ hL)
              · simp only at hrec
                exact Bool.noConfusion hrec
          · rw [runAudio] at h
            simp only [audioStep_loud_wait th mind maxs st now level s0 hl hr hs hge,
              List.nil_append] at h
            rcases ih _ τ h with hL | ⟨_, s, hsome, hpw⟩
            · exact Or.inl (sustainedWindow_cons th mind _ xs τ hL)
            · simp only [hs, Option.some.injEq] at hsome
              rw [← hsome] at hpw
              exact Or.inr ⟨hr, s0, rfl,
                prefixWindowFrom_cons th mind s0 (now, level) xs τ hl hpw⟩
    · by_cases hr : st.is_recording = true
      · by_cases ht : pyTruthy st.last_audio_time = true
        · by_cases hge : now - (st.last_audio_time.getD 0) ≥ maxs
          · rw [runAudio] at h
            simp only
              [audioStep_quiet_stop th mind maxs st now level hl hr ht hge] at h
            rcases List.mem_append.mp h with hev | htail
            · exact absurd (List.mem_singleton.mp hev)
                (fun hx => AudioEvent.noConfusion hx)
            · rcases ih _ τ htail with hL | ⟨_, s, hsome, _⟩
              · exact Or.inl (sustainedWindow_cons th mind _ xs τ hL)
              · simp only at hsome
                exact Option.noConfusion hsome
          · rw [runAudio] at h
            simp only [audioStep_quiet_hold th mind maxs st now level hl hr ht hge,
              List.nil_append] at h
            rcases ih _ τ h with hL | ⟨hrec, _⟩
            · exact Or.inl (sustainedWindow_cons th mind _ xs τ hL)
            · rw [hr] at hrec
              exact Bool.noConfusion hrec
        · rw [runAudio] at h
          simp only [audioStep_quiet_stale th mind maxs st now level hl hr
            (Bool.not_eq_true _ ▸ ht), List.nil_append] at h
          rcases ih _ τ h with hL | ⟨hrec, _⟩
          · exact Or.inl (sustainedWindow_cons th mind _ xs τ hL)
          · rw [hr] at hrec
            exact Bool.noConfusion hrec
      · rw [Bool.not_eq_true] at hr
        rw [runAudio] at h
        simp only [audioStep_quiet_reset th mind maxs st now level hl hr,
          List.nil_append] at h
        rcases ih _ τ h with hL | ⟨_, s, hsome, _⟩
        · exact Or.inl (sustainedWindow_cons th mind _ xs τ hL)
        · simp only at hsome
          exact Option.noConfusion hsome

/-- While recording, a stream of above-threshold samples emits nothing. -/
theorem runAudio_rec_allLoud (th mind maxs : ℚ) :
    ∀ (samples : List (ℚ × ℚ)) (st : AudioState), st.is_recording = true →
      allLoud th samples → (runAudio th mind maxs st samples).2 = [] := by
  intro samples
  induction samples with
  | nil => intro st _ _; rfl
  | cons x xs ih =>
    intro st hr hloud
    obtain ⟨now, level⟩ := x
    have hl : level > th := hloud (now, level) (List.mem_cons_self _ _)
    rw [runAudio]
    simp only [audioStep_loud_rec th mind maxs st now level hl hr,
      List.nil_append]
    exact ih _ (by simp [hr]) (fun z hz => hloud z (List.mem_cons_of_mem _ hz))

/-- Not recording, candidate-start instant `s` in hand: on an all-loud
stream the emitted events are exactly one `Start`, at the time of the first
sample at least `min_duration` after `s` — or nothing if no sample ever
gets that far. -/
theorem runAudio_cand_allLoud (th mind maxs : ℚ) :
    ∀ (samples : List (ℚ × ℚ)) (st : AudioState) (s : ℚ),
      st.is_recording = false → st.audio_start_time = some s →
      allLoud th samples →
      (runAudio th mind maxs st samples).2 =
        match samples.find? (fun z => decide (z.1 - s ≥ mind)) with
        | some y => [AudioEvent.start y.1]
        | none => [] := by
  intro samples
  induction samples with
  | nil => intro st s _ _ _; rfl
  | cons x xs ih =>
    intro st s hr hs hloud
    obtain ⟨now, level⟩ := x
    have hl : level > th := hloud (now, level) (List.mem_cons_self _ _)
    have hrest : allLoud th xs := fun z hz => hloud z (List.mem_cons_of_mem _ hz)
    by_cases hge : now - s ≥ mind
    · rw [runAudio]
      simp only [audioStep_loud_fire th mind maxs st now level s hl hr hs hge]
      rw [runAudio_rec_allLoud th mind maxs xs _ (by simp) hrest]
      rw [List.find?_cons_of_pos _ (by simpa using hge)]
      simp
    · rw [runAudio]
      simp only [audioStep_loud_wait th mind maxs st now level s hl hr hs hge,
        List.nil_append]
      rw [ih _ s (by simp [hr]) (by simp [hs]) hrest]
      rw [List.find?_cons_of_neg _ (by simpa using hge)]

/-- From the initial state, an all-loud stream emits exactly one `Start`, at
the time of the first sample at least `min_duration` after the stream's
first sample — or nothing if the stream never spans `min_duration`. -/
theorem runAudio_init_allLoud (th mind maxs : ℚ) (x : ℚ × ℚ)
    (xs : List (ℚ × ℚ)) (hloud : allLoud th (x :: xs)) :
    (runAudio th mind maxs initAudio (x :: xs)).2 =
      match xs.find? (fun z => decide (z.1 - x.1 ≥ mind)) with
      | some y => [AudioEvent.start y.1]
      | none => [] := by
  obtain ⟨now, level⟩ := x
  have hl : level > th := hloud (now, level) (List.mem_cons_self _ _)
  rw [runAudio]
  simp only [audioStep_loud_first th mind maxs initAudio now level hl rfl rfl,
    List.nil_append]
  exact runAudio_cand_allLoud th mind maxs xs _ now rfl rfl
    (fun z hz => hloud z (List.mem_cons_of_mem _ hz))

/-- **C3**.  Start-side hysteresis from the initial (inactive) state:
(i) soundness — every emitted `Start` at time `τ` is backed by a contiguous
above-threshold window of span at least `min_duration` ending at `τ`;
(ii) completeness and uniqueness on continuously-loud streams — the run
emits exactly one `Start`, at the first sample at least `min_duration`
after the first sample (the instant the sustained window completes), and no
`Start` at all if the stream never spans `min_duration`;
(iii) a sample at or below the threshold while not recording resets the
candidate start time to `None` (the timer is continuous, not cumulative). -/
theorem c3_start_hysteresis (threshold_db min_duration max_silence : ℚ) :
    (∀ (samples : List (ℚ × ℚ)) (τ : ℚ),
      AudioEvent.start τ ∈
          (runAudio threshold_db min_duration max_silence initAudio samples).2 →
      sustainedWindow threshold_db min_duration samples τ) ∧
    (∀ (x : ℚ × ℚ) (xs : List (ℚ × ℚ)), allLoud threshold_db (x :: xs) →
      (runAudio threshold_db min_duration max_silence initAudio (x :: xs)).2 =
        match xs.find? (fun z => decide (z.1 - x.1 ≥ min_duration)) with
        | some y => [AudioEvent.start y.1]
        | none => []) ∧
    (∀ (st : AudioState) (now level : ℚ), st.is_recording = false →
      ¬ level > threshold_db →
      (audioStep threshold_db min_duration max_silence st now level).1.audio_start_time
          = none ∧
      (audioStep threshold_db min_duration max_silence st now level).2 = []) := by
  refine ⟨?_, runAudio_init_allLoud threshold_db min_duration max_silence, ?_⟩
  · intro samples τ h
    rcases runAudio_start_sound threshold_db min_duration max_silence samples
        initAudio τ h with hL | ⟨_, s, hsome, _⟩
    · exact hL
    · exact Option.noConfusion hsome
  · intro st now level hr hl
    rw [audioStep_quiet_reset threshold_db min_duration max_silence st now level
      hl hr]
    exact ⟨rfl, rfl⟩

/-- **C3** witness: part (i) of `c3_start_hysteresis` at the §8 stream
(whose `Start 5` is backed by the loud window `t ∈ [0, 5]`), and part (iii)
at a quiet sample in the inactive state. -/
theorem c3_witness :
    sustainedWindow (-50) 5 c6stream 5 ∧
    ((audioStep (-50) 5 10 initAudio 3 (-60)).1.audio_start_time = none ∧
      (audioStep (-50) 5 10 initAudio 3 (-60)).2 = []) :=
  ⟨(c3_start_hysteresis (-50) 5 10).1 c6stream 5
      (by rw [runAudio_c6stream]; exact List.mem_cons_self _ _),
    (c3_start_hysteresis (-50) 5 10).2.2 initAudio 3 (-60) rfl (by norm_num)⟩

end Transcriber
